import Mathlib

/-!
# Verification of the mkdoc tokenizer core

Shallow embedding of the table-driven C++ tokenizer in
`src/mkdoc-tokenizer/tokenizer.cxx` / `tokenizer.hxx` (the Complemake
variant, whose 47-state enumeration matches the transition table in the
`.cxx` file), together with proofs about its behavior.

Modeling conventions:
* input code points (`char32_t`) are `Nat`; token text (`abc::dmstr`) is
  `List Nat`;
* the per-call local variable `statePushed` of `token_iterator::operator++`
  is an `Option tokenizer_state` initialized to `none`; reading it before a
  push has written it is the C++ uninitialized read, so that case takes an
  explicit `junk` parameter as the unspecified value and raises the ghost
  flag `uninitRead`;
* the out-of-bounds `m_s[2]` read in `get_comment_token_type` is modeled
  with `List.get?`, whose `none` branch is the out-of-bounds case.
-/

set_option maxHeartbeats 4000000
set_option maxRecDepth 8192

namespace Mkdoc

/-- Character types, exactly the `char_type` enumeration of the source
(`ABC_ENUM_AUTO_VALUES(char_type, ...)`), in declaration order. -/
inductive char_type where
  | amp | aster | bksl | caret | colon | digit | dot | eol | equal | excl
  | fwsl | gt | inval | lt | ltr | ltre | minus | perc | pipe | plus
  | pound | punct | qdbl | qsng | tilde | whsp
deriving DecidableEq, Repr, Fintype

/-- Tokenizer states, exactly the 47-value `tokenizer_state` enumeration of
the source, in declaration order. -/
inductive tokenizer_state where
  | amp | amp2 | arw | arwa | astr | bksl | bsac | bol | cl | cle
  | cln | cln2 | cmm | cmms | cmmz | cms | cpp | crt | crt2 | dot
  | dot2 | dot3 | dota | eql | excl | fwsl | gt | gt2 | id | lt
  | lt2 | mns | mns2 | num | nume | nums | opeq | perc | pip | pip2
  | pls | pls2 | punc | sl | sle | tild | whsp
deriving DecidableEq, Repr, Fintype

/-- Tokenizer actions, exactly the `tokenizer_action` enumeration of the
source. -/
inductive tokenizer_action where
  | accumulate
  | error
  | pop_state
  | pop_state_and_accumulate_backslash
  | push_state
  | yield_and_accumulate
  | yield_and_ignore
deriving DecidableEq, Repr, Fintype

/-- Output token types, exactly the `token_type` enumeration of the source.
The C++ enumerator `end` is a Lean keyword and is written `«end»`. -/
inductive token_type where
  | ampersand | assign | asterisk | bracel | bracer | bracketl | bracketr
  | charlit | comment | colon | comma | cpp_def | cpp_flow | cpp_incl
  | cpp_other | dbl_colon | ellipsis | error | document | dot | «end»
  | identifier | minus | number | op_add_assign | op_bit_and
  | op_bit_and_assign | op_bit_not | op_bit_or | op_bit_or_assign
  | op_bit_xor | op_bit_xor_assign | op_decr | op_deref_member_access
  | op_div | op_div_assign | op_incr | op_log_and | op_log_not | op_log_or
  | op_log_xor | op_lsh | op_lsh_assign | op_mod | op_mod_assign
  | op_mult_assign | op_ptr_to_member_deref_val | op_ptr_to_member_deref_ptr
  | op_rel_equal | op_rel_noteq | op_rel_gt | op_rel_gteq | op_rel_lt
  | op_rel_lteq | op_rsh | op_rsh_assign | op_sub_assign | parenl | parenr
  | plus | qmark | semicolon | stringlit | whitesp
deriving DecidableEq, Repr, Fintype

/-- A tokenizer evolution: `struct evo_t` of the source. -/
structure evo_t where
  stateNext : tokenizer_state
  actionNext : tokenizer_action
deriving DecidableEq, Repr

/-- The `AC` table macro: `{ next, tokenizer_action::accumulate }`. -/
def AC (s : tokenizer_state) : evo_t := ⟨s, tokenizer_action.accumulate⟩

/-- The `ER` table macro: `{ tokenizer_state::whsp, tokenizer_action::error }`. -/
def ER : evo_t := ⟨tokenizer_state.whsp, tokenizer_action.error⟩

/-- The `PS` table macro: `{ next, tokenizer_action::push_state }`. -/
def PS (s : tokenizer_state) : evo_t := ⟨s, tokenizer_action.push_state⟩

/-- The `PP` table macro: `{ next, tokenizer_action::pop_state }`. -/
def PP (s : tokenizer_state) : evo_t := ⟨s, tokenizer_action.pop_state⟩

/-- The `PB` table macro:
`{ next, tokenizer_action::pop_state_and_accumulate_backslash }`. -/
def PB (s : tokenizer_state) : evo_t :=
  ⟨s, tokenizer_action.pop_state_and_accumulate_backslash⟩

/-- The `YA` table macro: `{ next, tokenizer_action::yield_and_accumulate }`. -/
def YA (s : tokenizer_state) : evo_t := ⟨s, tokenizer_action.yield_and_accumulate⟩

/-- The `YI` table macro: `{ next, tokenizer_action::yield_and_ignore }`. -/
def YI (s : tokenizer_state) : evo_t := ⟨s, tokenizer_action.yield_and_ignore⟩

/-- `token_iterator::smc_chtMap`: the fixed 128-entry table mapping each
7-bit code point to its character type, transcribed entry by entry. -/
def smc_chtMap : List char_type :=
  [ -- 00-0f
   char_type.inval, char_type.inval, char_type.inval, char_type.inval, char_type.inval, char_type.inval, char_type.inval, char_type.inval,
   char_type.inval, char_type.whsp , char_type.eol  , char_type.whsp , char_type.whsp , char_type.whsp , char_type.inval, char_type.inval,
   -- 10-1f
   char_type.inval, char_type.inval, char_type.inval, char_type.inval, char_type.inval, char_type.inval, char_type.inval, char_type.inval,
   char_type.inval, char_type.inval, char_type.inval, char_type.inval, char_type.inval, char_type.inval, char_type.inval, char_type.inval,
   -- 20-2f: sp ! " # $ % & ( ) * + , - . /
   char_type.whsp , char_type.excl , char_type.qdbl , char_type.pound, char_type.inval, char_type.perc , char_type.amp  , char_type.qsng ,
   char_type.punct, char_type.punct, char_type.aster, char_type.plus , char_type.punct, char_type.minus, char_type.dot  , char_type.fwsl ,
   -- 30-3f: digits : ; < = > ?
   char_type.digit, char_type.digit, char_type.digit, char_type.digit, char_type.digit, char_type.digit, char_type.digit, char_type.digit,
   char_type.digit, char_type.digit, char_type.colon, char_type.punct, char_type.lt   , char_type.equal, char_type.gt   , char_type.punct,
   -- 40-4f: at A-O (E is ltre)
   char_type.inval, char_type.ltr  , char_type.ltr  , char_type.ltr  , char_type.ltr  , char_type.ltre , char_type.ltr  , char_type.ltr  ,
   char_type.ltr  , char_type.ltr  , char_type.ltr  , char_type.ltr  , char_type.ltr  , char_type.ltr  , char_type.ltr  , char_type.ltr  ,
   -- 50-5f: P-Z [ backslash ] caret underscore
   char_type.ltr  , char_type.ltr  , char_type.ltr  , char_type.ltr  , char_type.ltr  , char_type.ltr  , char_type.ltr  , char_type.ltr  ,
   char_type.ltr  , char_type.ltr  , char_type.ltr  , char_type.punct, char_type.bksl , char_type.punct, char_type.caret, char_type.ltr  ,
   -- 60-6f: backquote a-o (e is ltre)
   char_type.inval, char_type.ltr  , char_type.ltr  , char_type.ltr  , char_type.ltr  , char_type.ltre , char_type.ltr  , char_type.ltr  ,
   char_type.ltr  , char_type.ltr  , char_type.ltr  , char_type.ltr  , char_type.ltr  , char_type.ltr  , char_type.ltr  , char_type.ltr  ,
   -- 70-7f: p-z braces pipe tilde del
   char_type.ltr  , char_type.ltr  , char_type.ltr  , char_type.ltr  , char_type.ltr  , char_type.ltr  , char_type.ltr  , char_type.ltr  ,
   char_type.ltr  , char_type.ltr  , char_type.ltr  , char_type.punct, char_type.pipe , char_type.punct, char_type.tilde, char_type.inval]

/-- Character classification of `token_iterator::operator++`: code points
below 128 go through `smc_chtMap`, all others are `char_type::ltr`. -/
def classify (cp : Nat) : char_type :=
  if cp < 128 then smc_chtMap.getD cp char_type.inval else char_type.ltr

/-- Column index of a character type inside a transition-table row
(the declaration order of `char_type`). -/
def ctIdx : char_type → Nat
  | .amp => 0 | .aster => 1 | .bksl => 2 | .caret => 3 | .colon => 4
  | .digit => 5 | .dot => 6 | .eol => 7 | .equal => 8 | .excl => 9
  | .fwsl => 10 | .gt => 11 | .inval => 12 | .lt => 13 | .ltr => 14
  | .ltre => 15 | .minus => 16 | .perc => 17 | .pipe => 18 | .plus => 19
  | .pound => 20 | .punct => 21 | .qdbl => 22 | .qsng => 23 | .tilde => 24
  | .whsp => 25

/-- One row of `token_iterator::smc_evos`, transcribed from the source.
Column order: amp aster bksl caret colon digit dot eol equal excl fwsl gt
inval lt ltr ltre minus perc pipe plus pound punct qdbl qsng tilde whsp. -/
def evoRow : tokenizer_state → List evo_t
  | .amp =>
    [AC .amp2, YA .astr, PS .bksl, YA .crt, YA .cln, YA .num, YA .dot,
     YI .bol, AC .opeq, YA .excl, YA .fwsl, YA .gt, ER, YA .lt, YA .id,
     YA .id, YA .mns, YA .perc, YA .pip, YA .pls, ER, YA .punc, YA .sl,
     YA .cl, YA .tild, YA .whsp]
  | .amp2 =>
    [YA .amp, YA .astr, PS .bksl, YA .crt, YA .cln, YA .num, YA .dot,
     YI .bol, YA .eql, YA .excl, YA .fwsl, YA .gt, ER, YA .lt, YA .id,
     YA .id, YA .mns, YA .perc, YA .pip, YA .pls, ER, YA .punc, YA .sl,
     YA .cl, YA .tild, YA .whsp]
  | .arw =>
    [YA .amp, AC .arwa, PS .bksl, YA .crt, YA .cln, YA .num, YA .dot,
     YI .bol, YA .eql, YA .excl, YA .fwsl, YA .gt, ER, YA .lt, YA .id,
     YA .id, YA .mns, YA .perc, YA .pip, YA .pls, ER, YA .punc, YA .sl,
     YA .cl, YA .tild, YA .whsp]
  | .arwa =>
    [YA .amp, YA .astr, PS .bksl, YA .crt, YA .cln, YA .num, YA .dot,
     YI .bol, YA .eql, YA .excl, YA .fwsl, YA .gt, ER, YA .lt, YA .id,
     YA .id, YA .mns, YA .perc, YA .pip, YA .pls, ER, YA .punc, YA .sl,
     YA .cl, YA .tild, YA .whsp]
  | .astr =>
    [YA .amp, YA .astr, PS .bksl, YA .crt, YA .cln, YA .num, YA .dot,
     YI .bol, AC .opeq, YA .excl, YA .fwsl, YA .gt, ER, YA .lt, YA .id,
     YA .id, YA .mns, YA .perc, YA .pip, YA .pls, ER, YA .punc, YA .sl,
     YA .cl, YA .tild, YA .whsp]
  | .bksl =>
    [ER, ER, ER, ER, ER, ER, ER, PP .bksl, ER, ER, ER, ER, ER, ER, ER,
     ER, ER, ER, ER, ER, ER, ER, ER, ER, ER, ER]
  | .bsac =>
    [PB .bsac, PB .bsac, PB .bsac, PB .bsac, PB .bsac, PB .bsac, PB .bsac,
     PP .bsac, PB .bsac, PB .bsac, PB .bsac, PB .bsac, PB .bsac, PB .bsac,
     PB .bsac, PB .bsac, PB .bsac, PB .bsac, PB .bsac, PB .bsac, PB .bsac,
     PB .bsac, PB .bsac, PB .bsac, PB .bsac, PB .bsac]
  | .bol =>
    [YA .amp, YA .astr, PS .bksl, YA .crt, YA .cln, YA .num, YA .dot,
     YI .bol, YA .eql, YA .excl, YA .fwsl, YA .gt, ER, YA .lt, YA .id,
     YA .id, YA .mns, YA .perc, YA .pip, YA .pls, YA .cpp, YA .punc,
     YA .sl, YA .cl, YA .tild, YI .bol]
  | .cl =>
    [AC .cl, AC .cl, AC .bsac, AC .cl, AC .cl, AC .cl, AC .cl, AC .cl,
     AC .cl, AC .cl, AC .cl, AC .cl, AC .cl, AC .cl, AC .cl, AC .cl,
     AC .cl, AC .cl, AC .cl, AC .cl, AC .cl, AC .cl, AC .cl, AC .cle,
     AC .cl, AC .cl]
  | .cle =>
    [YA .amp, YA .astr, PS .bksl, YA .crt, YA .cln, YA .cle, YA .dot,
     YI .bol, YA .eql, YA .excl, YA .fwsl, YA .gt, ER, YA .lt, AC .cle,
     AC .cle, YA .mns, YA .perc, YA .pip, YA .pls, ER, YA .punc, YA .sl,
     YA .cl, YA .tild, YA .whsp]
  | .cln =>
    [YA .amp, YA .astr, PS .bksl, YA .crt, AC .cln2, YA .num, YA .dot,
     YI .bol, YA .eql, YA .excl, YA .fwsl, YA .gt, ER, YA .lt, YA .id,
     YA .id, YA .mns, YA .perc, YA .pip, YA .pls, ER, YA .punc, YA .sl,
     YA .cl, YA .tild, YA .whsp]
  | .cln2 =>
    [YA .amp, YA .astr, PS .bksl, YA .crt, YA .cln, YA .num, YA .dot,
     YI .bol, YA .eql, YA .excl, YA .fwsl, YA .gt, ER, YA .lt, YA .id,
     YA .id, YA .mns, YA .perc, YA .pip, YA .pls, ER, YA .punc, YA .sl,
     YA .cl, YA .tild, YA .whsp]
  | .cmm =>
    [AC .cmm, AC .cmms, PS .bksl, AC .cmm, AC .cmm, AC .cmm, AC .cmm,
     AC .cmm, AC .cmm, AC .cmm, AC .cmm, AC .cmm, ER, AC .cmm, AC .cmm,
     AC .cmm, AC .cmm, AC .cmm, AC .cmm, AC .cmm, AC .cmm, AC .cmm,
     AC .cmm, AC .cmm, AC .cmm, AC .cmm]
  | .cmms =>
    [AC .cmm, AC .cmms, PS .bksl, AC .cmm, AC .cmm, AC .cmm, AC .cmm,
     AC .cmm, AC .cmm, AC .cmm, AC .cmmz, AC .cmm, ER, AC .cmm, AC .cmm,
     AC .cmm, AC .cmm, AC .cmm, AC .cmm, AC .cmm, AC .cmm, AC .cmm,
     AC .cmm, AC .cmm, AC .cmm, AC .cmm]
  | .cmmz =>
    [YA .amp, YA .astr, PS .bksl, YA .crt, YA .cln, YA .num, YA .dot,
     YI .bol, YA .eql, YA .excl, YA .fwsl, YA .gt, ER, YA .lt, YA .id,
     YA .id, YA .mns, YA .perc, YA .pip, YA .pls, ER, YA .punc, YA .sl,
     YA .cl, YA .tild, AC .cmmz]
  | .cms =>
    [AC .cms, AC .cms, PS .bksl, AC .cms, AC .cms, AC .cms, AC .cms,
     YI .bol, AC .cms, AC .cms, AC .cms, AC .cms, ER, AC .cms, AC .cms,
     AC .cms, AC .cms, AC .cms, AC .cms, AC .cms, AC .cms, AC .cms,
     AC .cms, AC .cms, AC .cms, AC .cms]
  | .cpp =>
    [AC .cpp, AC .cpp, PS .bksl, AC .cpp, AC .cpp, AC .cpp, AC .cpp,
     YI .bol, AC .cpp, AC .cpp, AC .cpp, AC .cpp, ER, AC .cpp, AC .cpp,
     AC .cpp, AC .cpp, AC .cpp, AC .cpp, AC .cpp, AC .cpp, AC .cpp,
     AC .cpp, AC .cpp, AC .cpp, AC .cpp]
  | .crt =>
    [YA .amp, YA .astr, PS .bksl, AC .crt2, YA .cln, YA .num, YA .dot,
     YI .bol, AC .opeq, YA .excl, YA .fwsl, YA .gt, ER, YA .lt, YA .id,
     YA .id, YA .mns, YA .perc, YA .pip, YA .pls, ER, YA .punc, YA .sl,
     YA .cl, YA .tild, YA .whsp]
  | .crt2 =>
    [YA .amp, YA .astr, PS .bksl, YA .crt, YA .cln, YA .num, YA .dot,
     YI .bol, YA .eql, YA .excl, YA .fwsl, YA .gt, ER, YA .lt, YA .id,
     YA .id, YA .mns, YA .perc, YA .pip, YA .pls, ER, YA .punc, YA .sl,
     YA .cl, YA .tild, YA .whsp]
  | .dot =>
    [YA .amp, AC .dota, PS .bksl, YA .crt, YA .cln, AC .num, AC .dot2,
     YI .bol, YA .eql, YA .excl, YA .fwsl, YA .gt, ER, YA .lt, YA .id,
     YA .id, YA .mns, YA .perc, YA .pip, YA .mns, ER, YA .punc, YA .sl,
     YA .cl, YA .tild, YA .whsp]
  | .dot2 =>
    [ER, ER, PS .bksl, ER, ER, ER, AC .dot3, ER, ER, ER, ER, ER, ER, ER,
     ER, ER, ER, ER, ER, ER, ER, ER, ER, ER, ER, ER]
  | .dot3 =>
    [YA .amp, YA .astr, PS .bksl, YA .crt, YA .cln, YA .num, YA .dot,
     YI .bol, YA .eql, YA .excl, YA .fwsl, YA .gt, ER, YA .lt, YA .id,
     YA .id, YA .mns, YA .perc, YA .pip, YA .mns, ER, YA .punc, YA .sl,
     YA .cl, YA .tild, YA .whsp]
  | .dota =>
    [YA .amp, YA .astr, PS .bksl, YA .crt, YA .cln, YA .num, YA .num,
     YI .bol, YA .eql, YA .excl, YA .fwsl, YA .gt, ER, YA .lt, YA .id,
     YA .id, YA .mns, YA .perc, YA .pip, YA .pls, ER, YA .punc, YA .sl,
     YA .cl, YA .tild, YA .whsp]
  | .eql =>
    [YA .amp, YA .astr, PS .bksl, YA .crt, YA .cln, YA .num, YA .dot,
     YI .bol, AC .opeq, YA .excl, YA .fwsl, YA .gt, ER, YA .lt, YA .id,
     YA .id, YA .mns, YA .perc, YA .pip, YA .pls, ER, YA .punc, YA .sl,
     YA .cl, YA .tild, YA .whsp]
  | .excl =>
    [YA .amp, YA .astr, PS .bksl, YA .crt, YA .cln, YA .num, YA .dot,
     YI .bol, AC .opeq, YA .excl, YA .fwsl, YA .gt, ER, YA .lt, YA .id,
     YA .id, YA .mns, YA .perc, YA .pip, YA .pls, ER, YA .punc, YA .sl,
     YA .cl, YA .tild, YA .whsp]
  | .fwsl =>
    [YA .amp, AC .cmm, PS .bksl, YA .crt, YA .cln, YA .num, YA .dot,
     YI .bol, AC .opeq, YA .excl, AC .cms, YA .gt, ER, YA .lt, YA .id,
     YA .id, YA .mns, YA .perc, YA .pip, YA .pls, ER, YA .punc, YA .sl,
     YA .cl, YA .tild, YA .whsp]
  | .gt =>
    [YA .amp, YA .astr, PS .bksl, YA .crt, YA .cln, YA .num, YA .dot,
     YI .bol, AC .opeq, YA .excl, YA .fwsl, AC .gt2, ER, YA .lt, YA .id,
     YA .id, YA .mns, YA .perc, YA .pip, YA .pls, ER, YA .punc, YA .sl,
     YA .cl, YA .tild, YA .whsp]
  | .gt2 =>
    [YA .amp, YA .astr, PS .bksl, YA .crt, YA .cln, YA .num, YA .dot,
     YI .bol, AC .opeq, YA .excl, YA .fwsl, YA .gt, ER, YA .lt, YA .id,
     YA .id, YA .mns, YA .perc, YA .pip, YA .pls, ER, YA .punc, YA .sl,
     YA .cl, YA .tild, YA .whsp]
  | .id =>
    [YA .amp, YA .astr, PS .bksl, YA .crt, YA .cln, AC .id, YA .dot,
     YI .bol, YA .eql, YA .excl, YA .fwsl, YA .gt, ER, YA .lt, AC .id,
     AC .id, YA .mns, YA .perc, YA .pip, YA .pls, ER, YA .punc, YA .sl,
     YA .cl, YA .tild, YA .whsp]
  | .lt =>
    [YA .amp, YA .astr, PS .bksl, YA .crt, YA .cln, YA .num, YA .dot,
     YI .bol, AC .opeq, YA .excl, YA .fwsl, YA .gt, ER, AC .lt2, YA .id,
     YA .id, YA .mns, YA .perc, YA .pip, YA .pls, ER, YA .punc, YA .sl,
     YA .cl, YA .tild, YA .whsp]
  | .lt2 =>
    [YA .amp, YA .astr, PS .bksl, YA .crt, YA .cln, YA .num, YA .dot,
     YI .bol, AC .opeq, YA .excl, YA .fwsl, YA .gt, ER, YA .lt, YA .id,
     YA .id, YA .mns, YA .perc, YA .pip, YA .pls, ER, YA .punc, YA .sl,
     YA .cl, YA .tild, YA .whsp]
  | .mns =>
    [YA .amp, YA .astr, PS .bksl, YA .crt, YA .cln, AC .num, AC .num,
     YI .bol, AC .opeq, YA .excl, YA .fwsl, AC .arw, ER, YA .lt, YA .id,
     YA .id, AC .mns2, YA .perc, YA .pip, YA .pls, ER, YA .punc, YA .sl,
     YA .cl, YA .tild, YA .whsp]
  | .mns2 =>
    [YA .amp, YA .astr, PS .bksl, YA .crt, YA .cln, YA .num, YA .num,
     YI .bol, YA .eql, YA .excl, YA .fwsl, YA .gt, ER, YA .lt, YA .id,
     YA .id, YA .mns, YA .perc, YA .pip, YA .pls, ER, YA .punc, YA .sl,
     YA .cl, YA .tild, YA .whsp]
  | .num =>
    [YA .amp, YA .astr, PS .bksl, YA .crt, YA .cln, AC .num, AC .num,
     YI .bol, YA .eql, YA .excl, YA .fwsl, YA .gt, ER, YA .lt, AC .nums,
     AC .nume, YA .mns, YA .perc, YA .pip, YA .pls, ER, YA .punc, YA .sl,
     YA .cl, YA .tild, YA .whsp]
  | .nume =>
    [YA .amp, YA .astr, PS .bksl, YA .crt, YA .cln, AC .nums, YA .dot,
     YI .bol, YA .eql, YA .excl, YA .fwsl, YA .gt, ER, YA .lt, AC .nums,
     AC .nums, AC .nums, YA .perc, YA .pip, AC .nums, ER, YA .punc,
     YA .sl, YA .cl, YA .tild, YA .whsp]
  | .nums =>
    [YA .amp, YA .astr, PS .bksl, YA .crt, YA .cln, AC .nums, YA .dot,
     YI .bol, YA .eql, YA .excl, YA .fwsl, YA .gt, ER, YA .lt, AC .nums,
     AC .nums, YA .mns, YA .perc, YA .pip, YA .pls, ER, YA .punc, YA .sl,
     YA .cl, YA .tild, YA .whsp]
  | .opeq =>
    [YA .amp, YA .astr, PS .bksl, YA .crt, YA .cln, YA .num, YA .dot,
     YI .bol, YA .eql, YA .excl, YA .fwsl, YA .gt, ER, YA .lt, YA .id,
     YA .id, YA .mns, YA .perc, YA .pip, YA .pls, ER, YA .punc, YA .sl,
     YA .cl, YA .tild, YA .whsp]
  | .perc =>
    [YA .amp, YA .astr, PS .bksl, YA .crt, YA .cln, YA .num, YA .dot,
     YI .bol, AC .opeq, YA .excl, YA .fwsl, YA .gt, ER, YA .lt, YA .id,
     YA .id, YA .mns, YA .perc, YA .pip, YA .pls, ER, YA .punc, YA .sl,
     YA .cl, YA .tild, YA .whsp]
  | .pip =>
    [YA .amp, YA .astr, PS .bksl, YA .crt, YA .cln, YA .num, YA .dot,
     YI .bol, AC .opeq, YA .excl, YA .fwsl, YA .gt, ER, YA .lt, YA .id,
     YA .id, YA .mns, YA .perc, AC .pip2, YA .pls, ER, YA .punc, YA .sl,
     YA .cl, YA .tild, YA .whsp]
  | .pip2 =>
    [YA .amp, YA .astr, PS .bksl, YA .crt, YA .cln, YA .num, YA .dot,
     YI .bol, AC .opeq, YA .excl, YA .fwsl, YA .gt, ER, YA .lt, YA .id,
     YA .id, YA .mns, YA .perc, YA .pip, YA .pls, ER, YA .punc, YA .sl,
     YA .cl, YA .tild, YA .whsp]
  | .pls =>
    [YA .amp, YA .astr, PS .bksl, YA .crt, YA .cln, AC .num, AC .num,
     YI .bol, AC .opeq, YA .excl, YA .fwsl, YA .gt, ER, YA .lt, YA .id,
     YA .id, YA .mns, YA .perc, YA .pip, AC .pls2, ER, YA .punc, YA .sl,
     YA .cl, YA .tild, YA .whsp]
  | .pls2 =>
    [YA .amp, YA .astr, PS .bksl, YA .crt, YA .cln, YA .num, YA .num,
     YI .bol, YA .eql, YA .excl, YA .fwsl, YA .gt, ER, YA .lt, YA .id,
     YA .id, YA .mns, YA .perc, YA .pip, YA .pls, ER, YA .punc, YA .sl,
     YA .cl, YA .tild, YA .whsp]
  | .punc =>
    [YA .amp, YA .astr, PS .bksl, YA .crt, YA .cln, YA .num, YA .dot,
     YI .bol, YA .eql, YA .excl, YA .fwsl, YA .gt, ER, YA .lt, YA .id,
     YA .id, YA .mns, YA .perc, YA .pip, YA .pls, ER, YA .punc, YA .sl,
     YA .cl, YA .tild, YA .whsp]
  | .sl =>
    [AC .sl, AC .sl, AC .bsac, AC .sl, AC .sl, AC .sl, AC .sl, AC .sl,
     AC .sl, AC .sl, AC .sl, AC .sl, AC .sl, AC .sl, AC .sl, AC .sl,
     AC .sl, AC .sl, AC .sl, AC .sl, AC .sl, AC .sl, AC .sle, AC .sl,
     AC .sl, AC .sl]
  | .sle =>
    [YA .amp, YA .astr, PS .bksl, YA .crt, YA .cln, YA .sle, YA .dot,
     YI .bol, YA .eql, YA .excl, YA .fwsl, YA .gt, ER, YA .lt, AC .sle,
     AC .sle, YA .mns, YA .perc, YA .pip, YA .pls, ER, YA .punc, YA .sl,
     YA .cl, YA .tild, YA .whsp]
  | .tild =>
    [YA .amp, YA .astr, PS .bksl, YA .crt, YA .cln, YA .num, YA .dot,
     YI .bol, YA .eql, YA .excl, YA .fwsl, YA .gt, ER, YA .lt, YA .id,
     YA .id, YA .mns, YA .perc, YA .pip, YA .pls, ER, YA .punc, YA .sl,
     YA .cl, YA .tild, YA .whsp]
  | .whsp =>
    [YA .amp, YA .astr, PS .bksl, YA .crt, YA .cln, YA .num, YA .dot,
     YI .bol, YA .eql, YA .excl, YA .fwsl, YA .gt, ER, YA .lt, YA .id,
     YA .id, YA .mns, YA .perc, YA .pip, YA .pls, ER, YA .punc, YA .sl,
     YA .cl, YA .tild, AC .whsp]

/-- `token_iterator::smc_evos`: the transition table, looked up by state
row and character-type column. -/
def smc_evos (st : tokenizer_state) (ct : char_type) : evo_t :=
  (evoRow st).getD (ctIdx ct) ER

/-- A token: text (`m_s`, a `dmstr` modeled as code-point list) and type
(`m_tt`). -/
structure token where
  s : List Nat
  tt : token_type
deriving DecidableEq, Repr

/-- `token_iterator::get_comment_token_type`: reads `m_s[2]` and yields
`document` when it is `!` (code 33), `comment` otherwise. The C++ read is
unconditional; the `none` branch is the out-of-bounds case (text shorter
than 3), where a `dmstr` read past the end compares unequal to `!`. -/
def get_comment_token_type (s : List Nat) : token_type :=
  match s.get? 2 with
  | some c => if c = 33 then token_type.document else token_type.comment
  | none => token_type.comment

/-- `token_iterator::get_compound_assignm_token_type`: switches on the
first accumulated character (and on the second for `<` and `>`). The
wildcard returns `error`, the default that `finalize_next_token` preset. -/
def get_compound_assignm_token_type (s : List Nat) : token_type :=
  match s.getD 0 0 with
  | 33 => token_type.op_rel_noteq
  | 37 => token_type.op_mod_assign
  | 38 => token_type.op_bit_and_assign
  | 42 => token_type.op_mult_assign
  | 43 => token_type.op_add_assign
  | 45 => token_type.op_sub_assign
  | 47 => token_type.op_div_assign
  | 61 => token_type.op_rel_equal
  | 94 => token_type.op_bit_xor_assign
  | 124 => token_type.op_bit_or_assign
  | 60 => if s.getD 1 0 = 60 then token_type.op_lsh_assign
          else token_type.op_rel_lteq
  | 62 => if s.getD 1 0 = 62 then token_type.op_rsh_assign
          else token_type.op_rel_gteq
  | _ => token_type.error

/-- `token_iterator::get_cpreproc_token_type`: a stub (`// TODO`) that
never assigns, so the token keeps the `error` default preset by
`finalize_next_token`. -/
def get_cpreproc_token_type (_s : List Nat) : token_type :=
  token_type.error

/-- `token_iterator::get_punctuation_token_type`: switches on the first
accumulated character; the wildcard keeps the preset `error` default. -/
def get_punctuation_token_type (s : List Nat) : token_type :=
  match s.getD 0 0 with
  | 40 => token_type.parenl
  | 41 => token_type.parenr
  | 44 => token_type.comma
  | 59 => token_type.semicolon
  | 63 => token_type.qmark
  | 91 => token_type.bracketl
  | 93 => token_type.bracketr
  | 123 => token_type.bracel
  | 125 => token_type.bracer
  | _ => token_type.error

/-- `struct output_token_t`: either a fixed token type (`pfnSpecialCase ==
nullptr`) or a special-case classifier called on the accumulated text. -/
inductive output_token_t where
  | fixed (tt : token_type)
  | special (f : List Nat → token_type)

/-- `token_iterator::smc_ttStateOutputs`: the output token for each final
state, transcribed in enumeration order. -/
def smc_ttStateOutputs : tokenizer_state → output_token_t
  | .amp => .fixed token_type.ampersand
  | .amp2 => .fixed token_type.op_log_and
  | .arw => .fixed token_type.op_deref_member_access
  | .arwa => .fixed token_type.op_ptr_to_member_deref_ptr
  | .astr => .fixed token_type.asterisk
  | .bksl => .fixed token_type.error
  | .bsac => .fixed token_type.error
  | .bol => .fixed token_type.error
  | .cl => .fixed token_type.error
  | .cle => .fixed token_type.charlit
  | .cln => .fixed token_type.colon
  | .cln2 => .fixed token_type.dbl_colon
  | .cmm => .fixed token_type.error
  | .cmms => .fixed token_type.error
  | .cmmz => .special get_comment_token_type
  | .cms => .special get_comment_token_type
  | .cpp => .special get_cpreproc_token_type
  | .crt => .fixed token_type.op_bit_xor
  | .crt2 => .fixed token_type.op_log_xor
  | .dot => .fixed token_type.dot
  | .dot2 => .fixed token_type.error
  | .dot3 => .fixed token_type.ellipsis
  | .dota => .fixed token_type.op_ptr_to_member_deref_val
  | .eql => .fixed token_type.assign
  | .excl => .fixed token_type.op_log_not
  | .fwsl => .fixed token_type.op_div
  | .gt => .fixed token_type.op_rel_gt
  | .gt2 => .fixed token_type.op_rsh
  | .id => .fixed token_type.identifier
  | .lt => .fixed token_type.op_rel_lt
  | .lt2 => .fixed token_type.op_lsh
  | .mns => .fixed token_type.minus
  | .mns2 => .fixed token_type.op_decr
  | .num => .fixed token_type.number
  | .nume => .fixed token_type.number
  | .nums => .fixed token_type.number
  | .opeq => .special get_compound_assignm_token_type
  | .perc => .fixed token_type.op_mod
  | .pip => .fixed token_type.op_bit_or
  | .pip2 => .fixed token_type.op_log_or
  | .pls => .fixed token_type.plus
  | .pls2 => .fixed token_type.op_incr
  | .punc => .special get_punctuation_token_type
  | .sl => .fixed token_type.error
  | .sle => .fixed token_type.stringlit
  | .tild => .fixed token_type.op_bit_not
  | .whsp => .fixed token_type.whitesp

/-- `token_iterator::finalize_next_token`, applied to the state at the
moment of finalization and the accumulated token: a special-case state
presets `error` and calls its classifier, a fixed state assigns directly.
The finalized token moves to `m_tkCurr`. -/
def finalize_next_token (st : tokenizer_state) (tkN : token) : token :=
  match smc_ttStateOutputs st with
  | .fixed tt => ⟨tkN.s, tt⟩
  | .special f => ⟨tkN.s, f tkN.s⟩

/-- Iterator state: the remaining input (`m_itAllCurr` to the end of
`m_sAll`), the current FSM state, the current and next tokens, and the
ghost flag recording that a pop read the local `statePushed` before any
push wrote it (an uninitialized read in the C++). -/
structure token_iterator where
  input : List Nat
  stateCurr : tokenizer_state
  tkCurr : token
  tkNext : token
  uninitRead : Bool
deriving DecidableEq, Repr

/-- Result of the character loop inside `operator++`: remaining input,
current state, the accumulator, the finalized token when the exit was a
yield, whether the exit was the error action, and the ghost flag. -/
structure loop_res where
  rest : List Nat
  st : tokenizer_state
  tkNext : token
  yTk : Option token
  errored : Bool
  uninit : Bool
deriving Repr

/-- The `while` loop of `token_iterator::operator++`: consume one
character at a time, look up the evolution, and interpret the action,
until a yield (finalize or error) or the end of input. `pushed` is the
local `statePushed`, `none` before any `push_state` has written it;
popping `none` is the uninitialized read: it takes `junk` as the value
and raises the ghost flag. -/
def run_loop (junk : tokenizer_state) :
    List Nat → Option tokenizer_state → tokenizer_state → token → Bool → loop_res
  | [], _pushed, st, tkN, un => ⟨[], st, tkN, none, false, un⟩
  | ch :: rest, pushed, st, tkN, un =>
    match (smc_evos st (classify ch)).actionNext with
    | tokenizer_action.accumulate =>
      run_loop junk rest pushed (smc_evos st (classify ch)).stateNext
        ⟨tkN.s ++ [ch], tkN.tt⟩ un
    | tokenizer_action.error =>
      ⟨rest, (smc_evos st (classify ch)).stateNext, tkN, none, true, un⟩
    | tokenizer_action.pop_state =>
      match pushed with
      | some saved => run_loop junk rest pushed saved tkN un
      | none => run_loop junk rest pushed junk tkN true
    | tokenizer_action.pop_state_and_accumulate_backslash =>
      match pushed with
      | some saved =>
        run_loop junk rest pushed saved ⟨tkN.s ++ [92, ch], tkN.tt⟩ un
      | none =>
        run_loop junk rest pushed junk ⟨tkN.s ++ [92, ch], tkN.tt⟩ true
    | tokenizer_action.push_state =>
      run_loop junk rest (some st) (smc_evos st (classify ch)).stateNext tkN un
    | tokenizer_action.yield_and_accumulate =>
      if tkN.s = [] then
        run_loop junk rest pushed (smc_evos st (classify ch)).stateNext
          ⟨tkN.s ++ [ch], tkN.tt⟩ un
      else
        ⟨rest, (smc_evos st (classify ch)).stateNext, ⟨[ch], token_type.error⟩,
         some (finalize_next_token st tkN), false, un⟩
    | tokenizer_action.yield_and_ignore =>
      if tkN.s = [] then
        run_loop junk rest pushed (smc_evos st (classify ch)).stateNext tkN un
      else
        ⟨rest, (smc_evos st (classify ch)).stateNext, ⟨[], token_type.error⟩,
         some (finalize_next_token st tkN), false, un⟩

/-- `token_iterator::operator++`. After the loop: a yield exit publishes
the finalized token; an error exit leaves `m_tkCurr` untouched; otherwise,
at end of input, a non-empty accumulator is finalized and published, and
an empty one turns the current token into the end marker (only `m_tt` is
assigned, the text is left as it was). -/
def opInc (junk : tokenizer_state) (it : token_iterator) : token_iterator :=
  match run_loop junk it.input none it.stateCurr it.tkNext it.uninitRead with
  | ⟨rest, rst, rtk, some tk, _, run⟩ => ⟨rest, rst, tk, rtk, run⟩
  | ⟨rest, rst, rtk, none, true, run⟩ => ⟨rest, rst, it.tkCurr, rtk, run⟩
  | ⟨rest, rst, rtk, none, false, run⟩ =>
    if rtk.s = [] then
      ⟨rest, rst, ⟨it.tkCurr.s, token_type.«end»⟩, rtk, run⟩
    else
      ⟨rest, rst, finalize_next_token rst rtk, ⟨[], token_type.error⟩, run⟩

/-- The public constructor `token_iterator::token_iterator(mstr &&)`:
start at the beginning of the buffer in state `bol` with default tokens,
then run `operator++` once to find the first token. -/
def mkIter (junk : tokenizer_state) (input : List Nat) : token_iterator :=
  opInc junk
    ⟨input, tokenizer_state.bol, ⟨[], token_type.error⟩,
     ⟨[], token_type.error⟩, false⟩

/-- The token sequence a caller observes: the current token after
construction and after each increment, stopping at (and including) the
first end marker. `fuel` bounds the number of increments. -/
def tokens_from (junk : tokenizer_state) : Nat → token_iterator → List token
  | 0, _ => []
  | Nat.succ n, it =>
    if it.tkCurr.tt = token_type.«end» then [it.tkCurr]
    else it.tkCurr :: tokens_from junk n (opInc junk it)

/-- Tokenize a whole buffer: `input.length + 2` increments always suffice
to reach the end marker (proved below). -/
def tokenize (junk : tokenizer_state) (input : List Nat) : List token :=
  tokens_from junk (input.length + 2) (mkIter junk input)

/-- `token_iterator::operator==`: true iff both iterators hold a current
token of type `end`. -/
def token_iterator_eq (a b : token_iterator) : Bool :=
  decide (a.tkCurr.tt = token_type.«end») &&
    decide (b.tkCurr.tt = token_type.«end»)

/-- `token_iterator::smc_itEnd`, built by the private constructor from
`token_type::end`: only `m_tkCurr.m_tt` matters to `operator==`. -/
def smc_itEnd : token_iterator :=
  ⟨[], tokenizer_state.bol, ⟨[], token_type.«end»⟩, ⟨[], token_type.error⟩,
   false⟩

end Mkdoc

namespace Mkdoc

/-- Whether the accumulator is non-empty, as 0 or 1; used in the
termination measure of the token stream. -/
def tkbit (t : token) : Nat := if t.s = [] then 0 else 1

/-- Termination measure of an iterator: remaining input length plus one
when the accumulator is non-empty. -/
def iterMeasure (it : token_iterator) : Nat :=
  it.input.length + tkbit it.tkNext

/-- `run_loop` on empty input exits the loop immediately. -/
lemma run_loop_nil (junk : tokenizer_state) (pushed : Option tokenizer_state)
    (st : tokenizer_state) (tkN : token) (un : Bool) :
    run_loop junk [] pushed st tkN un = ⟨[], st, tkN, none, false, un⟩ := rfl

lemma tkbit_le_one (t : token) : tkbit t ≤ 1 := by
  unfold tkbit; split <;> omega

lemma tkbit_of_ne (t : token) (h : ¬ t.s = []) : tkbit t = 1 := by
  simp [tkbit, h]

/-- Loop progress: a yield or error exit strictly decreases the measure
`rest.length + tkbit accumulator`, and an end-of-input exit leaves no
remaining input. -/
lemma run_loop_spec (junk : tokenizer_state) :
    ∀ (l : List Nat) (pushed : Option tokenizer_state) (st : tokenizer_state)
      (tkN : token) (un : Bool),
      (((run_loop junk l pushed st tkN un).yTk ≠ none ∨
          (run_loop junk l pushed st tkN un).errored = true) →
        (run_loop junk l pushed st tkN un).rest.length +
            tkbit (run_loop junk l pushed st tkN un).tkNext <
          l.length + tkbit tkN) ∧
      ((run_loop junk l pushed st tkN un).yTk = none →
        (run_loop junk l pushed st tkN un).errored = false →
        (run_loop junk l pushed st tkN un).rest = []) := by
  intro l
  induction l with
  | nil =>
    intro pushed st tkN un
    constructor
    · intro h; simp [run_loop] at h
    · intro _ _; simp [run_loop]
  | cons ch rest ih =>
    intro pushed st tkN un
    have hb := tkbit_le_one tkN
    simp only [run_loop]
    split
    · -- accumulate
      rcases ih pushed (smc_evos st (classify ch)).stateNext
          ⟨tkN.s ++ [ch], tkN.tt⟩ un with ⟨ih1, ih2⟩
      refine ⟨fun h => ?_, ih2⟩
      have hlt := ih1 h
      have hb2 := tkbit_le_one ⟨tkN.s ++ [ch], tkN.tt⟩
      simp only [List.length_cons]
      omega
    · -- error
      constructor
      · intro _
        simp only [List.length_cons]
        omega
      · intro _ h; simp at h
    · -- pop_state
      split
      · rcases ih _ _ tkN un with ⟨ih1, ih2⟩
        refine ⟨fun h => ?_, ih2⟩
        have hlt := ih1 h
        simp only [List.length_cons]
        omega
      · rcases ih _ junk tkN true with ⟨ih1, ih2⟩
        refine ⟨fun h => ?_, ih2⟩
        have hlt := ih1 h
        simp only [List.length_cons]
        omega
    · -- pop_state_and_accumulate_backslash
      split
      · rcases ih _ _ ⟨tkN.s ++ [92, ch], tkN.tt⟩ un with ⟨ih1, ih2⟩
        refine ⟨fun h => ?_, ih2⟩
        have hlt := ih1 h
        have hb2 := tkbit_le_one ⟨tkN.s ++ [92, ch], tkN.tt⟩
        simp only [List.length_cons]
        omega
      · rcases ih _ junk ⟨tkN.s ++ [92, ch], tkN.tt⟩ true with ⟨ih1, ih2⟩
        refine ⟨fun h => ?_, ih2⟩
        have hlt := ih1 h
        have hb2 := tkbit_le_one ⟨tkN.s ++ [92, ch], tkN.tt⟩
        simp only [List.length_cons]
        omega
    · -- push_state
      rcases ih (some st) (smc_evos st (classify ch)).stateNext tkN un with ⟨ih1, ih2⟩
      refine ⟨fun h => ?_, ih2⟩
      have hlt := ih1 h
      simp only [List.length_cons]
      omega
    · -- yield_and_accumulate
      split
      · rcases ih pushed (smc_evos st (classify ch)).stateNext
            ⟨tkN.s ++ [ch], tkN.tt⟩ un with ⟨ih1, ih2⟩
        refine ⟨fun h => ?_, ih2⟩
        have hlt := ih1 h
        have hb2 := tkbit_le_one ⟨tkN.s ++ [ch], tkN.tt⟩
        simp only [List.length_cons]
        omega
      · next hne =>
        constructor
        · intro _
          have h1 : tkbit tkN = 1 := tkbit_of_ne tkN hne
          have h2 : tkbit ⟨[ch], token_type.error⟩ ≤ 1 :=
            tkbit_le_one ⟨[ch], token_type.error⟩
          simp only [List.length_cons]
          omega
        · intro h; simp at h
    · -- yield_and_ignore
      split
      · rcases ih pushed (smc_evos st (classify ch)).stateNext tkN un with ⟨ih1, ih2⟩
        refine ⟨fun h => ?_, ih2⟩
        have hlt := ih1 h
        simp only [List.length_cons]
        omega
      · next hne =>
        constructor
        · intro _
          have h1 : tkbit tkN = 1 := tkbit_of_ne tkN hne
          have h2 : tkbit ⟨[], token_type.error⟩ ≤ 1 :=
            tkbit_le_one ⟨[], token_type.error⟩
          simp only [List.length_cons]
          omega
        · intro h; simp at h

end Mkdoc

namespace Mkdoc

/-- The comment classifier never returns the end marker type. -/
lemma get_comment_token_type_ne_end (s : List Nat) :
    get_comment_token_type s ≠ token_type.«end» := by
  unfold get_comment_token_type
  split
  · split <;> decide
  · decide

/-- The compound-assignment classifier never returns the end marker type. -/
lemma get_compound_assignm_token_type_ne_end (s : List Nat) :
    get_compound_assignm_token_type s ≠ token_type.«end» := by
  unfold get_compound_assignm_token_type
  split <;> first | decide | (split <;> decide)

/-- The preprocessor stub never returns the end marker type. -/
lemma get_cpreproc_token_type_ne_end (s : List Nat) :
    get_cpreproc_token_type s ≠ token_type.«end» := by
  unfold get_cpreproc_token_type
  decide

/-- The punctuation classifier never returns the end marker type. -/
lemma get_punctuation_token_type_ne_end (s : List Nat) :
    get_punctuation_token_type s ≠ token_type.«end» := by
  unfold get_punctuation_token_type
  split <;> decide

/-- No fixed state output is the end marker type. -/
lemma smc_ttStateOutputs_fixed_ne_end (st : tokenizer_state) (tt : token_type)
    (h : smc_ttStateOutputs st = output_token_t.fixed tt) :
    tt ≠ token_type.«end» := by
  cases st <;> simp only [smc_ttStateOutputs] at h <;> cases h <;> decide

/-- No special-case state output ever returns the end marker type. -/
lemma smc_ttStateOutputs_special_ne_end (st : tokenizer_state)
    (f : List Nat → token_type)
    (h : smc_ttStateOutputs st = output_token_t.special f) (s : List Nat) :
    f s ≠ token_type.«end» := by
  cases st <;> simp only [smc_ttStateOutputs] at h <;> cases h <;>
    first
      | exact get_comment_token_type_ne_end s
      | exact get_compound_assignm_token_type_ne_end s
      | exact get_cpreproc_token_type_ne_end s
      | exact get_punctuation_token_type_ne_end s

/-- No finalized token carries the end marker type: the end marker is
produced only by the end-of-input branch of `operator++`. -/
lemma finalize_next_token_ne_end (st : tokenizer_state) (tkN : token) :
    (finalize_next_token st tkN).tt ≠ token_type.«end» := by
  unfold finalize_next_token
  split
  · next tt hout => simpa using smc_ttStateOutputs_fixed_ne_end st tt hout
  · next f hout => simpa using smc_ttStateOutputs_special_ne_end st f hout tkN.s

/-- A token yielded from inside the loop comes from `finalize_next_token`,
hence never carries the end marker type. -/
lemma run_loop_some_ne_end (junk : tokenizer_state) :
    ∀ (l : List Nat) (pushed : Option tokenizer_state) (st : tokenizer_state)
      (tkN : token) (un : Bool) (tk : token),
      (run_loop junk l pushed st tkN un).yTk = some tk →
      tk.tt ≠ token_type.«end» := by
  intro l
  induction l with
  | nil => intro pushed st tkN un tk h; simp [run_loop] at h
  | cons ch rest ih =>
    intro pushed st tkN un tk h
    simp only [run_loop] at h
    split at h
    · exact ih _ _ _ _ tk h
    · simp at h
    · split at h
      · exact ih _ _ _ _ tk h
      · exact ih _ _ _ _ tk h
    · split at h
      · exact ih _ _ _ _ tk h
      · exact ih _ _ _ _ tk h
    · exact ih _ _ _ _ tk h
    · split at h
      · exact ih _ _ _ _ tk h
      · simp at h
        exact h ▸ finalize_next_token_ne_end st tkN
    · split at h
      · exact ih _ _ _ _ tk h
      · simp at h
        exact h ▸ finalize_next_token_ne_end st tkN

/-- Every increment either produces the end marker or strictly decreases
the measure. -/
lemma opInc_end_or_lt (junk : tokenizer_state) (it : token_iterator) :
    (opInc junk it).tkCurr.tt = token_type.«end» ∨
      iterMeasure (opInc junk it) < iterMeasure it := by
  have hs := run_loop_spec junk it.input none it.stateCurr it.tkNext it.uninitRead
  rcases heq : run_loop junk it.input none it.stateCurr it.tkNext it.uninitRead
    with ⟨rest, rst, rtk, ry, rerr, run⟩
  rw [heq] at hs
  cases ry with
  | some tk =>
    right
    have hI : opInc junk it = ⟨rest, rst, tk, rtk, run⟩ := by
      unfold opInc; rw [heq]
    rw [hI]
    simp only [iterMeasure]
    exact hs.1 (Or.inl (by simp))
  | none =>
    cases rerr with
    | true =>
      right
      have hI : opInc junk it = ⟨rest, rst, it.tkCurr, rtk, run⟩ := by
        unfold opInc; rw [heq]
      rw [hI]
      simp only [iterMeasure]
      exact hs.1 (Or.inr rfl)
    | false =>
      have hrest : rest = [] := by simpa using hs.2 rfl rfl
      subst hrest
      by_cases hrs : rtk.s = []
      · left
        have hI : opInc junk it =
            ⟨[], rst, ⟨it.tkCurr.s, token_type.«end»⟩, rtk, run⟩ := by
          unfold opInc; rw [heq]; simp [hrs]
        rw [hI]
      · right
        have hI : opInc junk it =
            ⟨[], rst, finalize_next_token rst rtk, ⟨[], token_type.error⟩, run⟩ := by
          unfold opInc; rw [heq]; simp [hrs]
        rw [hI]
        simp only [iterMeasure, List.length_nil]
        have h1 : tkbit (⟨[], token_type.error⟩ : token) = 0 := by simp [tkbit]
        rw [h1]
        cases hin : it.input with
        | nil =>
          rw [hin, run_loop_nil] at heq
          cases heq
          have h2 := tkbit_of_ne it.tkNext hrs
          simp [h2]
        | cons a l =>
          simp only [List.length_cons]
          omega

end Mkdoc

namespace Mkdoc

/-- With enough fuel (the measure plus two), the observed token sequence is
non-empty, ends with a token of type `end`, and contains no other token of
type `end`. -/
lemma tokens_from_spec (junk : tokenizer_state) :
    ∀ (fuel : Nat) (it : token_iterator),
      ((it.tkCurr.tt = token_type.«end» ∧ 1 ≤ fuel) ∨
        iterMeasure it + 2 ≤ fuel) →
      ∃ ts tk, tokens_from junk fuel it = ts ++ [tk] ∧
        tk.tt = token_type.«end» ∧
        ∀ x ∈ ts, x.tt ≠ token_type.«end» := by
  intro fuel
  induction fuel with
  | zero =>
    intro it h
    rcases h with ⟨_, h⟩ | h <;> omega
  | succ n ih =>
    intro it h
    by_cases hend : it.tkCurr.tt = token_type.«end»
    · refine ⟨[], it.tkCurr, ?_, hend, by simp⟩
      simp [tokens_from, hend]
    · have hm : iterMeasure it + 2 ≤ n + 1 := by
        rcases h with ⟨he, _⟩ | h
        · exact absurd he hend
        · exact h
      have harg : ((opInc junk it).tkCurr.tt = token_type.«end» ∧ 1 ≤ n) ∨
          iterMeasure (opInc junk it) + 2 ≤ n := by
        rcases opInc_end_or_lt junk it with h1 | h2
        · exact Or.inl ⟨h1, by omega⟩
        · exact Or.inr (by omega)
      rcases ih (opInc junk it) harg with ⟨ts, tk, hts, htk, hne⟩
      refine ⟨it.tkCurr :: ts, tk, ?_, htk, ?_⟩
      · simp [tokens_from, hend, hts]
      · intro x hx
        rcases List.mem_cons.mp hx with rfl | hx
        · exact hend
        · exact hne x hx

/-- Claim C3 (amended): for every junk value and every input buffer, the
token sequence is finite (it is a list), it ends with exactly one
end-of-input marker, and no earlier element is an end marker. Error-typed
tokens are not terminal and may appear earlier in the sequence. -/
theorem C3_terminal_marker_amended (junk : tokenizer_state) (input : List Nat) :
    ∃ ts tk, tokenize junk input = ts ++ [tk] ∧
      tk.tt = token_type.«end» ∧
      ∀ x ∈ ts, x.tt ≠ token_type.«end» := by
  unfold tokenize
  apply tokens_from_spec
  have hμ : iterMeasure
      ⟨input, tokenizer_state.bol, ⟨[], token_type.error⟩,
       ⟨[], token_type.error⟩, false⟩ = input.length := by
    simp [iterMeasure, tkbit]
  rcases opInc_end_or_lt junk
      ⟨input, tokenizer_state.bol, ⟨[], token_type.error⟩,
       ⟨[], token_type.error⟩, false⟩ with h | h
  · exact Or.inl ⟨h, by omega⟩
  · right
    unfold mkIter
    omega

end Mkdoc

namespace Mkdoc

/-- Claim C8: once an increment has produced the end-of-input marker, the
iterator is exhausted: a further increment leaves the iterator (hence the
current token) unchanged, and the iterator compares equal to the end
iterator. -/
theorem C8_end_idempotent (junk : tokenizer_state) (it : token_iterator)
    (h1 : it.tkCurr.tt ≠ token_type.«end»)
    (h2 : (opInc junk it).tkCurr.tt = token_type.«end») :
    opInc junk (opInc junk it) = opInc junk it ∧
      token_iterator_eq (opInc junk it) smc_itEnd = true := by
  have hs := run_loop_spec junk it.input none it.stateCurr it.tkNext it.uninitRead
  have hy := run_loop_some_ne_end junk it.input none it.stateCurr it.tkNext
    it.uninitRead
  rcases heq : run_loop junk it.input none it.stateCurr it.tkNext it.uninitRead
    with ⟨rest, rst, rtk, ry, rerr, run⟩
  rw [heq] at hs
  cases ry with
  | some tk =>
    exfalso
    have hI : opInc junk it = ⟨rest, rst, tk, rtk, run⟩ := by
      unfold opInc; rw [heq]
    rw [hI] at h2
    exact hy tk (by rw [heq]) h2
  | none =>
    cases rerr with
    | true =>
      exfalso
      have hI : opInc junk it = ⟨rest, rst, it.tkCurr, rtk, run⟩ := by
        unfold opInc; rw [heq]
      rw [hI] at h2
      exact h1 h2
    | false =>
      have hrest : rest = [] := by simpa using hs.2 rfl rfl
      subst hrest
      by_cases hrs : rtk.s = []
      · have hI : opInc junk it =
            ⟨[], rst, ⟨it.tkCurr.s, token_type.«end»⟩, rtk, run⟩ := by
          unfold opInc; rw [heq]; simp [hrs]
        rw [hI]
        constructor
        · unfold opInc
          rw [run_loop_nil]
          simp [hrs]
        · simp [token_iterator_eq, smc_itEnd]
      · exfalso
        have hI : opInc junk it =
            ⟨[], rst, finalize_next_token rst rtk, ⟨[], token_type.error⟩, run⟩ := by
          unfold opInc; rw [heq]; simp [hrs]
        rw [hI] at h2
        exact finalize_next_token_ne_end rst rtk h2

/-- Witness for C8: on the empty buffer, the first increment produces the
end marker; a second increment is the identity and the iterator equals the
end iterator. -/
theorem C8_end_idempotent_witness :
    opInc tokenizer_state.whsp (opInc tokenizer_state.whsp
        ⟨[], tokenizer_state.bol, ⟨[], token_type.error⟩,
         ⟨[], token_type.error⟩, false⟩) =
      opInc tokenizer_state.whsp
        ⟨[], tokenizer_state.bol, ⟨[], token_type.error⟩,
         ⟨[], token_type.error⟩, false⟩ ∧
    token_iterator_eq
        (opInc tokenizer_state.whsp
          ⟨[], tokenizer_state.bol, ⟨[], token_type.error⟩,
           ⟨[], token_type.error⟩, false⟩) smc_itEnd = true :=
  C8_end_idempotent tokenizer_state.whsp
    ⟨[], tokenizer_state.bol, ⟨[], token_type.error⟩,
     ⟨[], token_type.error⟩, false⟩ (by decide) (by decide)

end Mkdoc

namespace Mkdoc

/-- Claim C1 counterexample: tokenizing `a\qb` from the initial state does
not yield an identifier containing the two characters `\q` (92, 113):
the backslash is dropped by the push, and the following `q` hits the error
action in the `bksl` state; the observed sequence is a stale error-typed
default token, a whitespace-typed token `a`, an identifier `b`, and the
end marker. -/
theorem C1_backslash_counterexample :
    tokenize tokenizer_state.whsp [97, 92, 113, 98] =
      [⟨[], token_type.error⟩, ⟨[97], token_type.whitesp⟩,
       ⟨[98], token_type.identifier⟩, ⟨[98], token_type.«end»⟩] ∧
    ∀ tk ∈ tokenize tokenizer_state.whsp [97, 92, 113, 98],
      ¬ (tk.tt = token_type.identifier ∧ 92 ∈ tk.s) := by
  decide

/-- Claim C1 (amended): reading a backslash pushes the current state and
enters the `bksl` state in every state except the literal bodies `cl` and
`sl` (which accumulate the backslash and enter `bsac` without pushing) and
the two pending-backslash states themselves; from the pushed `bksl` state
only an end-of-line pops back to the saved state, every other character
class is the error action, so no re-accumulation of backslash plus
character happens there (re-accumulation exists only in `bsac`); hence
`a\qb` from the initial state errors at `q` instead of yielding an
identifier containing `\q`. -/
theorem C1_backslash_amended :
    (∀ st : tokenizer_state,
      smc_evos st char_type.bksl = PS tokenizer_state.bksl ∨
        st = tokenizer_state.cl ∨ st = tokenizer_state.sl ∨
        st = tokenizer_state.bksl ∨ st = tokenizer_state.bsac) ∧
    smc_evos tokenizer_state.cl char_type.bksl = AC tokenizer_state.bsac ∧
    smc_evos tokenizer_state.sl char_type.bksl = AC tokenizer_state.bsac ∧
    (∀ ct : char_type,
      smc_evos tokenizer_state.bksl ct = ER ∨ ct = char_type.eol) ∧
    smc_evos tokenizer_state.bksl char_type.eol = PP tokenizer_state.bksl ∧
    (∀ ct : char_type,
      smc_evos tokenizer_state.bsac ct = PB tokenizer_state.bsac ∨
        ct = char_type.eol) ∧
    smc_evos tokenizer_state.bsac char_type.eol = PP tokenizer_state.bsac ∧
    (tokenize tokenizer_state.whsp [97, 92, 113, 98]).all
      (fun tk => decide (tk.tt ≠ token_type.identifier ∨ ¬ 92 ∈ tk.s)) = true := by
  decide

/-- Claim C2: evaluation at the failing inputs. On `$ab` the error action
at `$` ends the increment with the current token left at its stale default
instead of a produced error marker, with the rest of the buffer (`ab`)
unconsumed; the next increment consumes it and yields the identifier `ab`,
so consumption is not halted. On `a$` the pending partial token `a` is
finalized by a later increment (as a whitespace token), so a partial token
is produced for the errored step. -/
theorem C2_error_no_halt_eval :
    tokenize tokenizer_state.whsp [36, 97, 98] =
      [⟨[], token_type.error⟩, ⟨[97, 98], token_type.identifier⟩,
       ⟨[97, 98], token_type.«end»⟩] ∧
    (mkIter tokenizer_state.whsp [36, 97, 98]).tkCurr = ⟨[], token_type.error⟩ ∧
    (mkIter tokenizer_state.whsp [36, 97, 98]).input = [97, 98] ∧
    (opInc tokenizer_state.whsp (mkIter tokenizer_state.whsp [36, 97, 98])).input = [] ∧
    tokenize tokenizer_state.whsp [97, 36] =
      [⟨[], token_type.error⟩, ⟨[97], token_type.whitesp⟩,
       ⟨[97], token_type.«end»⟩] := by
  decide

/-- Claim C3 counterexample: for the input `#x` followed by a newline, the
produced sequence contains both an error-typed token (the stubbed
preprocessor classifier leaves the `#x` token with the error type) and the
end-of-input marker, refuting the never-both part of the claim. -/
theorem C3_terminal_marker_counterexample :
    tokenize tokenizer_state.whsp [35, 120, 10] =
      [⟨[35, 120], token_type.error⟩, ⟨[35, 120], token_type.«end»⟩] ∧
    (∃ tk ∈ tokenize tokenizer_state.whsp [35, 120, 10],
      tk.tt = token_type.error) ∧
    (∃ tk ∈ tokenize tokenizer_state.whsp [35, 120, 10],
      tk.tt = token_type.«end») := by
  decide

/-- Claim C4: the input f, o, backslash, newline, o yields exactly one
identifier token, with text `foo`: the backslash pushes the identifier
state, the newline pops it back, and neither is accumulated. The only
other element of the sequence is the end marker. -/
theorem C4_line_continuation (junk : tokenizer_state) :
    tokenize junk [102, 111, 92, 10, 111] =
      [⟨[102, 111, 111], token_type.identifier⟩,
       ⟨[102, 111, 111], token_type.«end»⟩] := by
  revert junk
  decide

/-- Claim C5: comment classification by the third accumulated character:
`/*! hello */` is a documentation comment, `/* hello */` an ordinary
comment, `// hello` (up to the newline) an ordinary comment, and
`//! hello` a documentation comment, each as a single comment token
followed by the end marker. -/
theorem C5_comment_classification (junk : tokenizer_state) :
    tokenize junk [47, 42, 33, 32, 104, 101, 108, 108, 111, 32, 42, 47] =
      [⟨[47, 42, 33, 32, 104, 101, 108, 108, 111, 32, 42, 47],
        token_type.document⟩,
       ⟨[47, 42, 33, 32, 104, 101, 108, 108, 111, 32, 42, 47],
        token_type.«end»⟩] ∧
    tokenize junk [47, 42, 32, 104, 101, 108, 108, 111, 32, 42, 47] =
      [⟨[47, 42, 32, 104, 101, 108, 108, 111, 32, 42, 47],
        token_type.comment⟩,
       ⟨[47, 42, 32, 104, 101, 108, 108, 111, 32, 42, 47],
        token_type.«end»⟩] ∧
    tokenize junk [47, 47, 32, 104, 101, 108, 108, 111, 10] =
      [⟨[47, 47, 32, 104, 101, 108, 108, 111], token_type.comment⟩,
       ⟨[47, 47, 32, 104, 101, 108, 108, 111], token_type.«end»⟩] ∧
    tokenize junk [47, 47, 33, 32, 104, 101, 108, 108, 111, 10] =
      [⟨[47, 47, 33, 32, 104, 101, 108, 108, 111], token_type.document⟩,
       ⟨[47, 47, 33, 32, 104, 101, 108, 108, 111], token_type.«end»⟩] := by
  revert junk
  decide

/-- Claim C6: compound operator disambiguation: `<<=` yields exactly one
left-shift-assign token, `<=` exactly one less-or-equal token, and `<<`
followed by whitespace exactly one left-shift token (then a whitespace
token), each followed by the end marker. -/
theorem C6_compound_operators (junk : tokenizer_state) :
    tokenize junk [60, 60, 61] =
      [⟨[60, 60, 61], token_type.op_lsh_assign⟩,
       ⟨[60, 60, 61], token_type.«end»⟩] ∧
    tokenize junk [60, 61] =
      [⟨[60, 61], token_type.op_rel_lteq⟩, ⟨[60, 61], token_type.«end»⟩] ∧
    tokenize junk [60, 60, 32] =
      [⟨[60, 60], token_type.op_lsh⟩, ⟨[32], token_type.whitesp⟩,
       ⟨[32], token_type.«end»⟩] := by
  revert junk
  decide

/-- Claim C7: the character classifier is total: the table has exactly 128
entries, every code point below 128 is classified by its table entry (the
lookup is in bounds, independent of any default), and every code point at
or above 128 is classified as the letter class. -/
theorem C7_classifier_total :
    smc_chtMap.length = 128 ∧
    ∀ cp : Nat,
      (cp < 128 ∧ ∃ h : cp < smc_chtMap.length,
        classify cp = smc_chtMap.get ⟨cp, h⟩) ∨
      (128 ≤ cp ∧ classify cp = char_type.ltr) := by
  have hlen : smc_chtMap.length = 128 := by decide
  refine ⟨hlen, fun cp => ?_⟩
  by_cases h : cp < 128
  · left
    have h2 : cp < smc_chtMap.length := by omega
    refine ⟨h, h2, ?_⟩
    simp only [classify, if_pos h]
    rw [List.getD_eq_getElem?_getD, List.getElem?_eq_getElem h2]
    rfl
  · right
    refine ⟨by omega, ?_⟩
    simp [classify, h]

/-- Claim C9: evaluation at the failing input. Tokenizing `//` followed by
a newline finalizes through the line-comment state `cms`, whose output is
the special-case comment classifier; the finalized comment token has text
`//` of length 2, so the classifier read of index 2 is out of bounds (the
`none` branch of the index operation is taken). -/
theorem C9_comment_oob_eval :
    tokenize tokenizer_state.whsp [47, 47, 10] =
      [⟨[47, 47], token_type.comment⟩, ⟨[47, 47], token_type.«end»⟩] ∧
    (mkIter tokenizer_state.whsp [47, 47, 10]).tkCurr.s.length = 2 ∧
    ((mkIter tokenizer_state.whsp [47, 47, 10]).tkCurr.s.get? 2 = none) ∧
    smc_ttStateOutputs tokenizer_state.cms =
      output_token_t.special get_comment_token_type := by
  refine ⟨by decide, by decide, by decide, rfl⟩

/-- Claim C10: evaluation at the failing input. A backslash inside a
string or character literal is a plain accumulate into `bsac` with no
push, so the pop that follows reads the saved-state slot before any write:
on the input double-quote, a, backslash, n the ghost flag records the
uninitialized read, and the resulting token sequence differs for two
different junk values of the uninitialized local, i.e. the behavior is
unspecified. -/
theorem C10_uninit_pop_eval :
    smc_evos tokenizer_state.sl char_type.bksl = AC tokenizer_state.bsac ∧
    smc_evos tokenizer_state.cl char_type.bksl = AC tokenizer_state.bsac ∧
    (mkIter tokenizer_state.whsp [34, 97, 92, 110]).uninitRead = true ∧
    tokenize tokenizer_state.id [34, 97, 92, 110] ≠
      tokenize tokenizer_state.whsp [34, 97, 92, 110] := by
  decide

end Mkdoc
